import Mathlib

/-!
# Verification of `scripts/check_migration_rollbacks.py`

A shallow embedding of the migration-rollback linter.  The Python script
scans the `backend/migrations` directory of the repository, and for every
`*.sql` file directly under it that is not in a static allowlist it checks
that the file's text contains the substring `"-- Rollback:"`.  It prints the
offending relative paths (sorted) and exits with code 1 on any violation or
when the migrations directory is missing, and with code 0 otherwise.

The filesystem is modelled explicitly: a `FileSystem` records whether the
migrations directory exists and the directory entries (name plus optional
text content, `none` standing for an entry whose text cannot be read, e.g.
permission or UTF-8 decode failure, which makes `Path.read_text` raise).
`main` returns the trace of externally visible effects together with either
a normal exit code (`Except.ok`) or an uncaught exception (`Except.error`).
-/

namespace MigrationCheck

/-- The rollback marker, `"-- Rollback:"` in the script. -/
def ROLLBACK_MARKER : String := "-- Rollback:"

/-- The `ALLOWLIST` constant of the script: relative paths (with forward
slashes) of legacy migrations exempted from the rollback-marker check. -/
def ALLOWLIST : List String :=
  [ "backend/migrations/1 - init.sql"
  , "backend/migrations/2025_05_09_create_early_access.sql"
  , "backend/migrations/2025_05_11_create_signup.sql"
  , "backend/migrations/2025_05_15_add_user_roles_columns_types.sql"
  , "backend/migrations/2025_05_23_add_oauth_type_to_users.sql"
  , "backend/migrations/2025_10_04_1_create_workflow.sql"
  , "backend/migrations/2025_10_04_2_create_updated_at_trigger.sql"
  , "backend/migrations/2025_10_07_1_create_workflow_logs.sql"
  , "backend/migrations/2025_10_07_2_unique_workflow_name.sql"
  , "backend/migrations/2025_10_07_3_create_workflow_runs.sql"
  , "backend/migrations/2025_10_07_4_create_workflow_node_runs.sql"
  , "backend/migrations/2025_10_07_5_add_webhook_salt.sql"
  , "backend/migrations/2025_10_08_1_alter_workflows_add_concurrency.sql"
  , "backend/migrations/2025_5_12_add_is_verified.sql"
  , "backend/migrations/2025_5_12_create_email_verification_tokens.sql"
  , "backend/migrations/2025_5_13_add_used_at_email_verification_tokens.sql"
  , "backend/migrations/2025_5_16_add_reset_password_token_fields.sql"
  , "backend/migrations/2025_9_15_add_used_at_password_reset.sql"
  , "backend/migrations/2025_9_16_add_oauth_enum_email.sql" ]

/-- A directory entry of `backend/migrations`: its file name and its text
content.  `content = none` models an entry whose text cannot be obtained
(`read_text` raises: permission error, decode error, or a subdirectory). -/
structure MigrationFile where
  name : String
  content : Option String
deriving DecidableEq

/-- The part of the filesystem the script looks at: the (absolute) repository
root path, whether `backend/migrations` exists, and its entries in the order
the OS happens to enumerate them. -/
structure FileSystem where
  root : String
  migrationsDirExists : Bool
  entries : List MigrationFile
deriving DecidableEq

/-- The absolute path of the migrations directory, `REPO_ROOT / "backend" /
"migrations"` in the script. -/
def migrationsDir (root : String) : String := root ++ "/backend/migrations"

/-- `path.relative_to(REPO_ROOT).as_posix()`: the path of an entry relative
to the repository root, with forward slashes. -/
def relPath (f : MigrationFile) : String := "backend/migrations/" ++ f.name

/-- Whether a directory entry is matched by the glob pattern `*.sql`: its
name ends with `.sql` (`*` also matches the empty string, and glob matching
is case sensitive). -/
def isSqlName (f : MigrationFile) : Bool := ".sql".data.isSuffixOf f.name.data

/-- Python's string comparison, on code-point lists: lexicographic, a strict
prefix is smaller.  (`sorted` on `Path` values under a common parent
directory reduces to this comparison of the file names.) -/
def charListLe : List Char → List Char → Bool
  | [], _ => true
  | _ :: _, [] => false
  | a :: as, b :: bs =>
    if a.toNat < b.toNat then true
    else if b.toNat < a.toNat then false
    else charListLe as bs

/-- Lexicographic comparison of strings by Unicode code points. -/
def strLe (a b : String) : Bool := charListLe a.data b.data

/-- Comparison of directory entries by file name (under a common parent,
path order is file-name order). -/
def fileLe (a b : MigrationFile) : Bool := strLe a.name b.name

/-- `sorted(MIGRATIONS_DIR.glob("*.sql"))`: the `*.sql` entries of the
migrations directory, sorted by path. -/
def sortedSqlFiles (fs : FileSystem) : List MigrationFile :=
  (fs.entries.filter isSqlName).mergeSort fileLe

/-- `"-- Rollback:" in text`: the exact marker occurs as a contiguous
substring of the text (case sensitive, no normalization). -/
def containsMarker (t : String) : Bool :=
  decide (ROLLBACK_MARKER.data <:+: t.data)

/-- Is this entry's relative path in the allowlist? -/
def isExempt (f : MigrationFile) : Bool := decide (relPath f ∈ ALLOWLIST)

/-- Does the entry's content exist and contain the marker? -/
def fileHasMarker (f : MigrationFile) : Bool :=
  match f.content with
  | some t => containsMarker t
  | none => false

/-- An entry passes the check without being reported: it is exempt, or its
content is readable and contains the marker. -/
def fileOk (f : MigrationFile) : Bool := isExempt f || fileHasMarker f

/-- The externally visible effects the script can perform through its
runtime: filesystem queries and reads, stream writes, and (never used by
this script) filesystem mutations. -/
inductive Effect where
  | statDir (path : String)
  | listDir (path : String)
  | readFile (path : String)
  | writeStdout (line : String)
  | writeStderr (line : String)
  | writeFile (path : String) (content : String)
  | deleteFile (path : String)
deriving DecidableEq

/-- Effects that mutate the filesystem. -/
def isFsWrite : Effect → Bool
  | Effect.writeFile _ _ => true
  | Effect.deleteFile _ => true
  | _ => false

/-- Lines printed to standard output in a trace. -/
def stdoutOf (tr : List Effect) : List String :=
  tr.filterMap fun e =>
    match e with
    | Effect.writeStdout s => some s
    | _ => none

/-- Lines printed to standard error in a trace. -/
def stderrOf (tr : List Effect) : List String :=
  tr.filterMap fun e =>
    match e with
    | Effect.writeStderr s => some s
    | _ => none

/-- The loop body of `main`, over the sorted `*.sql` entries: skip exempt
entries, otherwise read the file (raising, i.e. `Except.error`, when the
text cannot be read) and record the relative path when the marker is
absent.  Returns the trace of effects and either the accumulated failure
list or the relative path of the file whose read raised. -/
def checkFiles : List MigrationFile → List Effect × Except String (List String)
  | [] => ([], Except.ok [])
  | f :: rest =>
    if isExempt f then checkFiles rest
    else
      match f.content with
      | none => ([Effect.readFile (relPath f)], Except.error (relPath f))
      | some t =>
        let r := checkFiles rest
        (Effect.readFile (relPath f) :: r.1,
         r.2.map fun fl => if containsMarker t then fl else relPath f :: fl)

/-- The header printed before the list of offending files. -/
def headerLine : String :=
  "The following migrations are missing a '-- Rollback:' guidance block:"

/-- The closing guidance line printed to standard error on failure. -/
def footerLine : String :=
  "Add rollback notes or update the allowlist once legacy files are documented."

/-- The diagnostic printed to standard error when the directory is missing. -/
def missingDirLine (root : String) : String :=
  "Missing migrations directory: " ++ migrationsDir root

/-- The tail of `main` after the directory was found to exist: prepend the
directory effects to the scan trace, and either re-raise the scan's read
error, or return exit code 0 on an empty failure list, or print the report
and return exit code 1. -/
def afterScan (dir : String) (r : List Effect × Except String (List String)) :
    List Effect × Except String Nat :=
  match r.2 with
  | Except.error e => (Effect.statDir dir :: Effect.listDir dir :: r.1, Except.error e)
  | Except.ok fl =>
    if fl.isEmpty then
      (Effect.statDir dir :: Effect.listDir dir :: r.1, Except.ok 0)
    else
      (Effect.statDir dir :: Effect.listDir dir :: r.1 ++
         Effect.writeStdout headerLine ::
           fl.map (fun p => Effect.writeStdout ("  - " ++ p)) ++
           [Effect.writeStderr footerLine],
       Except.ok 1)

/-- The script's `main`: the effect trace and either the returned exit code
(`Except.ok`) or the relative path of the file whose read raised an uncaught
exception (`Except.error`). -/
def main (fs : FileSystem) : List Effect × Except String Nat :=
  if fs.migrationsDirExists = false then
    ([ Effect.statDir (migrationsDir fs.root)
     , Effect.writeStderr (missingDirLine fs.root) ], Except.ok 1)
  else
    afterScan (migrationsDir fs.root) (checkFiles (sortedSqlFiles fs))

/-- The failure list `main` computes (or the uncaught read error). -/
def failuresOf (fs : FileSystem) : Except String (List String) :=
  (checkFiles (sortedSqlFiles fs)).2

/-- Replace the content of every allowlisted entry by `g` of its name,
leaving the other entries untouched.  Used to state that exempt files'
contents are irrelevant to the run. -/
def replaceExempt (g : String → Option String) (f : MigrationFile) : MigrationFile :=
  if isExempt f then ⟨f.name, g f.name⟩ else f

/-- A concrete directory: one exempt legacy file without the marker, one
undocumented migration, one documented migration (names already sorted). -/
def demoEntries : List MigrationFile :=
  [ ⟨"1 - init.sql", some "CREATE TABLE a (id int);"⟩
  , ⟨"bad_one.sql", some "CREATE TABLE b (id int);"⟩
  , ⟨"good.sql", some "CREATE TABLE c (id int);\n-- Rollback: DROP TABLE c;"⟩ ]

/-- A repository whose migrations directory holds `demoEntries`. -/
def demoFS : FileSystem := ⟨"/repo", true, demoEntries⟩

/-- A repository whose migrations directory is missing. -/
def demoMissingFS : FileSystem := ⟨"/repo", false, []⟩

/-- A directory with two undocumented migrations, enumerated out of order. -/
def demoTwoBadFS : FileSystem :=
  ⟨"/repo", true, [⟨"b_second.sql", some "ALTER TABLE b;"⟩,
                   ⟨"a_first.sql", some "ALTER TABLE a;"⟩]⟩

/-- A directory containing a non-exempt entry whose text cannot be read. -/
def demoUnreadableFS : FileSystem :=
  ⟨"/repo", true, [⟨"broken.sql", none⟩]⟩

/-- A directory where every non-exempt migration documents its rollback. -/
def demoOkFS : FileSystem :=
  ⟨"/repo", true, [⟨"fine.sql", some "CREATE TABLE t;\n-- Rollback: DROP TABLE t;"⟩]⟩

end MigrationCheck

namespace MigrationCheck

/-! ## The code-point order used by `sorted` -/

theorem charToNat_inj {a b : Char} (h : a.toNat = b.toNat) : a = b :=
  Char.eq_of_val_eq (UInt32.toNat.inj h)

theorem charListLe_refl (l : List Char) : charListLe l l = true := by
  induction l with
  | nil => rfl
  | cons c cs ih => simp [charListLe, Nat.lt_irrefl, ih]

theorem charListLe_total (a b : List Char) :
    charListLe a b = true ∨ charListLe b a = true := by
  induction a generalizing b with
  | nil => exact Or.inl rfl
  | cons x xs ih =>
    cases b with
    | nil => exact Or.inr rfl
    | cons y ys =>
      rcases Nat.lt_trichotomy x.toNat y.toNat with h | h | h
      · exact Or.inl (by simp [charListLe, h])
      · rcases ih ys with h' | h'
        · exact Or.inl (by simp [charListLe, h, Nat.lt_irrefl, h'])
        · exact Or.inr (by simp [charListLe, h.symm, Nat.lt_irrefl, h'])
      · exact Or.inr (by simp [charListLe, h])

theorem charListLe_trans {a b c : List Char}
    (h1 : charListLe a b = true) (h2 : charListLe b c = true) :
    charListLe a c = true := by
  induction a generalizing b c with
  | nil => rfl
  | cons x xs ih =>
    cases b with
    | nil => simp [charListLe] at h1
    | cons y ys =>
      cases c with
      | nil => simp [charListLe] at h2
      | cons z zs =>
        simp only [charListLe] at h1 h2 ⊢
        by_cases hxy : x.toNat < y.toNat
        · by_cases hyz : y.toNat < z.toNat
          · simp [Nat.lt_trans hxy hyz]
          · by_cases hzy : z.toNat < y.toNat
            · simp [hyz, hzy] at h2
            · have hxz : x.toNat < z.toNat := by omega
              simp [hxz]
        · by_cases hyx : y.toNat < x.toNat
          · simp [hxy, hyx] at h1
          · simp only [hxy, hyx, if_false] at h1
            by_cases hyz : y.toNat < z.toNat
            · have hxz : x.toNat < z.toNat := by omega
              simp [hxz]
            · by_cases hzy : z.toNat < y.toNat
              · simp [hyz, hzy] at h2
              · simp only [hyz, hzy, if_false] at h2
                have hxz : ¬ x.toNat < z.toNat := by omega
                have hzx : ¬ z.toNat < x.toNat := by omega
                simp [hxz, hzx, ih h1 h2]

theorem charListLe_antisymm {a b : List Char}
    (h1 : charListLe a b = true) (h2 : charListLe b a = true) : a = b := by
  induction a generalizing b with
  | nil =>
    cases b with
    | nil => rfl
    | cons y ys => simp [charListLe] at h2
  | cons x xs ih =>
    cases b with
    | nil => simp [charListLe] at h1
    | cons y ys =>
      simp only [charListLe] at h1 h2
      by_cases hxy : x.toNat < y.toNat
      · simp [Nat.lt_asymm hxy, hxy] at h2
      · by_cases hyx : y.toNat < x.toNat
        · simp [hxy, hyx] at h1
        · simp only [hxy, hyx, if_false] at h1 h2
          rw [charToNat_inj (by omega : x.toNat = y.toNat), ih h1 h2]

theorem charListLe_append_left (p a b : List Char) :
    charListLe (p ++ a) (p ++ b) = charListLe a b := by
  induction p with
  | nil => rfl
  | cons c cs ih => simp [charListLe, Nat.lt_irrefl, ih]

theorem strLe_antisymm {a b : String}
    (h1 : strLe a b = true) (h2 : strLe b a = true) : a = b :=
  String.ext (charListLe_antisymm h1 h2)

theorem strLe_append_left (p a b : String) :
    strLe (p ++ a) (p ++ b) = strLe a b := by
  unfold strLe
  rw [String.data_append, String.data_append, charListLe_append_left]

theorem fileLe_total : ∀ a b : MigrationFile, fileLe a b || fileLe b a := by
  intro a b
  rcases charListLe_total a.name.data b.name.data with h | h <;>
    simp [fileLe, strLe, h]

theorem fileLe_trans : ∀ a b c : MigrationFile,
    fileLe a b → fileLe b c → fileLe a c :=
  fun _ _ _ h1 h2 => charListLe_trans h1 h2

theorem relPath_mono {a b : MigrationFile} (h : fileLe a b = true) :
    strLe (relPath a) (relPath b) = true := by
  unfold relPath
  rw [strLe_append_left]
  exact h

theorem relPath_name_inj {a b : MigrationFile} (h : relPath a = relPath b) :
    a.name = b.name :=
  String.ext (List.append_cancel_left
    (congrArg String.data h : _ ++ _ = _ ++ _))

/-! ## The scanning loop -/

/-- On a run that raises no read error, the failure list is exactly the
relative paths of the scanned files that are neither exempt nor contain the
marker, in scan order. -/
theorem checkFiles_ok_failures {l : List MigrationFile} {fl : List String}
    (h : (checkFiles l).2 = Except.ok fl) :
    fl = (l.filter fun f => !fileOk f).map relPath := by
  induction l generalizing fl with
  | nil =>
    simp only [checkFiles, Except.ok.injEq] at h
    simp [← h]
  | cons f rest ih =>
    by_cases he : isExempt f
    · rw [checkFiles, if_pos he] at h
      rw [ih h, List.filter_cons]
      simp [fileOk, he]
    · cases hc : f.content with
      | none =>
        rw [checkFiles, if_neg he] at h
        simp [hc] at h
      | some t =>
        rw [checkFiles, if_neg he] at h
        simp only [hc] at h
        cases hr : (checkFiles rest).2 with
        | error e => simp [hr, Except.map] at h
        | ok fl' =>
          simp only [hr, Except.map, Except.ok.injEq] at h
          by_cases hm : containsMarker t
          · rw [← h, if_pos hm, ih hr, List.filter_cons]
            simp [fileOk, fileHasMarker, he, hc, hm]
          · rw [← h, if_neg hm, ih hr, List.filter_cons]
            simp [fileOk, fileHasMarker, he, hc, hm]

/-- A non-exempt entry whose text cannot be read makes the scan raise. -/
theorem checkFiles_error_of_unreadable {l : List MigrationFile}
    {f : MigrationFile} (hf : f ∈ l) (he : isExempt f = false)
    (hc : f.content = none) :
    ∃ e, (checkFiles l).2 = Except.error e := by
  induction l with
  | nil => cases hf
  | cons g rest ih =>
    rcases List.mem_cons.mp hf with rfl | hf'
    · exact ⟨relPath f, by rw [checkFiles, if_neg (by simp [he])]; simp [hc]⟩
    · by_cases hg : isExempt g
      · obtain ⟨e, h⟩ := ih hf'
        exact ⟨e, by rwa [checkFiles, if_pos hg]⟩
      · cases hgc : g.content with
        | none =>
          exact ⟨relPath g, by rw [checkFiles, if_neg (by simp [hg])]; simp [hgc]⟩
        | some t =>
          obtain ⟨e, h⟩ := ih hf'
          refine ⟨e, ?_⟩
          rw [checkFiles, if_neg (by simp [hg])]
          simp [hgc, h, Except.map]

/-- Every effect of the scanning loop is a read of the relative path of a
non-exempt scanned entry. -/
theorem checkFiles_trace {l : List MigrationFile} {e : Effect}
    (he : e ∈ (checkFiles l).1) :
    ∃ f, f ∈ l ∧ isExempt f = false ∧ e = Effect.readFile (relPath f) := by
  induction l with
  | nil => simp [checkFiles] at he
  | cons g rest ih =>
    by_cases hg : isExempt g
    · rw [checkFiles, if_pos hg] at he
      obtain ⟨f, h1, h2, h3⟩ := ih he
      exact ⟨f, List.mem_cons_of_mem _ h1, h2, h3⟩
    · cases hgc : g.content with
      | none =>
        rw [checkFiles, if_neg (by simp [hg])] at he
        simp only [hgc, List.mem_singleton] at he
        exact ⟨g, List.mem_cons_self _ _, by simp [hg], he⟩
      | some t =>
        rw [checkFiles, if_neg (by simp [hg])] at he
        simp only [hgc, List.mem_cons] at he
        rcases he with rfl | he'
        · exact ⟨g, List.mem_cons_self _ _, by simp [hg], rfl⟩
        · obtain ⟨f, h1, h2, h3⟩ := ih he'
          exact ⟨f, List.mem_cons_of_mem _ h1, h2, h3⟩

/-- The scan never looks at the content of an exempt entry: replacing all
exempt contents changes nothing. -/
theorem checkFiles_replaceExempt (g : String → Option String)
    (l : List MigrationFile) :
    checkFiles (l.map (replaceExempt g)) = checkFiles l := by
  induction l with
  | nil => rfl
  | cons f rest ih =>
    by_cases hf : isExempt f
    · have h1 : replaceExempt g f = ⟨f.name, g f.name⟩ := if_pos hf
      have h2 : isExempt (⟨f.name, g f.name⟩ : MigrationFile) = true := hf
      rw [List.map_cons, h1, checkFiles, if_pos h2, ih, checkFiles, if_pos hf]
    · have h1 : replaceExempt g f = f := if_neg hf
      rw [List.map_cons, h1, checkFiles, if_neg (by simp [hf]), ih,
        checkFiles, if_neg (by simp [hf])]

/-! ## The sorted file list -/

theorem sortedSqlFiles_sorted (fs : FileSystem) :
    (sortedSqlFiles fs).Pairwise fun a b => fileLe a b = true :=
  List.sorted_mergeSort fileLe_trans fileLe_total _

theorem mem_sortedSqlFiles {fs : FileSystem} {f : MigrationFile} :
    f ∈ sortedSqlFiles fs ↔ f ∈ fs.entries ∧ isSqlName f = true := by
  unfold sortedSqlFiles
  rw [List.mem_mergeSort, List.mem_filter]

theorem sortedSqlFiles_names_nodup {fs : FileSystem}
    (hn : (fs.entries.map MigrationFile.name).Nodup) :
    ((sortedSqlFiles fs).map MigrationFile.name).Nodup := by
  have h1 : ((fs.entries.filter isSqlName).map MigrationFile.name).Nodup :=
    ((List.filter_sublist fs.entries).map MigrationFile.name).nodup hn
  exact (((List.mergeSort_perm (fs.entries.filter isSqlName)
    fileLe).map MigrationFile.name).symm).nodup h1

theorem pairwise_strict_of_sorted_nodup {s : List MigrationFile}
    (hs : s.Pairwise fun a b => fileLe a b = true)
    (hn : (s.map MigrationFile.name).Nodup) :
    s.Pairwise fun a b => fileLe a b = true ∧ a.name ≠ b.name :=
  hs.and (List.pairwise_map.mp hn)

/-- The sorted file list depends only on the set of entries (their
enumeration order is irrelevant), as long as file names are distinct, as
they are in a real directory. -/
theorem sortedSqlFiles_perm {l1 l2 : List MigrationFile} (root : String)
    (d : Bool) (hp : l1.Perm l2) (hn : (l1.map MigrationFile.name).Nodup) :
    sortedSqlFiles ⟨root, d, l1⟩ = sortedSqlFiles ⟨root, d, l2⟩ := by
  haveI : IsAntisymm MigrationFile
      (fun a b => fileLe a b = true ∧ a.name ≠ b.name) :=
    ⟨fun a b h1 h2 => absurd (strLe_antisymm h1.1 h2.1) h1.2⟩
  have hperm : (sortedSqlFiles ⟨root, d, l1⟩).Perm
      (sortedSqlFiles ⟨root, d, l2⟩) :=
    ((List.mergeSort_perm _ fileLe).trans (hp.filter isSqlName)).trans
      (List.mergeSort_perm _ fileLe).symm
  have hn2 : (l2.map MigrationFile.name).Nodup := ((hp.map _)).nodup hn
  exact List.eq_of_perm_of_sorted hperm
    (pairwise_strict_of_sorted_nodup (sortedSqlFiles_sorted _)
      (sortedSqlFiles_names_nodup hn))
    (pairwise_strict_of_sorted_nodup (sortedSqlFiles_sorted _)
      (sortedSqlFiles_names_nodup hn2))

/-- Evaluation helper: when the `*.sql` entries are listed in sorted order
already, `sortedSqlFiles` is just the filter. -/
theorem sortedSqlFiles_eq_filter {fs : FileSystem}
    (h : (fs.entries.filter isSqlName).Pairwise fun a b => fileLe a b = true) :
    sortedSqlFiles fs = fs.entries.filter isSqlName :=
  List.mergeSort_of_sorted h

/-! ## `main` -/

theorem main_of_dir_exists {fs : FileSystem}
    (h : fs.migrationsDirExists = true) :
    main fs = afterScan (migrationsDir fs.root)
      (checkFiles (sortedSqlFiles fs)) := by
  unfold main
  rw [h]
  rfl

theorem stdoutOf_checkFiles (l : List MigrationFile) :
    stdoutOf (checkFiles l).1 = [] := by
  unfold stdoutOf
  rw [List.filterMap_eq_nil_iff]
  intro e he
  obtain ⟨f, -, -, rfl⟩ := checkFiles_trace he
  rfl

theorem stderrOf_checkFiles (l : List MigrationFile) :
    stderrOf (checkFiles l).1 = [] := by
  unfold stderrOf
  rw [List.filterMap_eq_nil_iff]
  intro e he
  obtain ⟨f, -, -, rfl⟩ := checkFiles_trace he
  rfl

theorem main_of_dir_missing {fs : FileSystem}
    (h : fs.migrationsDirExists = false) :
    main fs = ([Effect.statDir (migrationsDir fs.root),
      Effect.writeStderr (missingDirLine fs.root)], Except.ok 1) := by
  unfold main
  rw [h]
  rfl

theorem afterScan_error {dir : String}
    {r : List Effect × Except String (List String)} {e : String}
    (h : r.2 = Except.error e) :
    afterScan dir r =
      (Effect.statDir dir :: Effect.listDir dir :: r.1, Except.error e) := by
  unfold afterScan
  rw [h]

theorem afterScan_ok_nil {dir : String}
    {r : List Effect × Except String (List String)}
    (h : r.2 = Except.ok []) :
    afterScan dir r =
      (Effect.statDir dir :: Effect.listDir dir :: r.1, Except.ok 0) := by
  unfold afterScan
  rw [h]
  rfl

theorem afterScan_ok_cons {dir : String}
    {r : List Effect × Except String (List String)} {p : String}
    {fl : List String} (h : r.2 = Except.ok (p :: fl)) :
    afterScan dir r =
      (Effect.statDir dir :: Effect.listDir dir :: r.1 ++
         Effect.writeStdout headerLine ::
           (p :: fl).map (fun q => Effect.writeStdout ("  - " ++ q)) ++
           [Effect.writeStderr footerLine],
       Except.ok 1) := by
  unfold afterScan
  rw [h]
  rfl

theorem afterScan_ok_exit {dir : String}
    {r : List Effect × Except String (List String)} {fl : List String}
    (h : r.2 = Except.ok fl) :
    (afterScan dir r).2 = Except.ok (if fl.isEmpty then 0 else 1) := by
  cases fl with
  | nil => rw [afterScan_ok_nil h]; rfl
  | cons p fl' => rw [afterScan_ok_cons h]; rfl

/-- Every effect in a run's trace is a directory stat, a directory listing,
a read of a non-exempt scanned file, or a write of one of the report lines
to standard output or standard error. -/
theorem main_trace_mem {fs : FileSystem} {e : Effect}
    (he : e ∈ (main fs).1) :
    e = Effect.statDir (migrationsDir fs.root) ∨
    e = Effect.listDir (migrationsDir fs.root) ∨
    (∃ f, f ∈ sortedSqlFiles fs ∧ isExempt f = false ∧
      e = Effect.readFile (relPath f)) ∨
    e = Effect.writeStdout headerLine ∨
    (∃ p, e = Effect.writeStdout ("  - " ++ p)) ∨
    e = Effect.writeStderr footerLine ∨
    e = Effect.writeStderr (missingDirLine fs.root) := by
  cases hd : fs.migrationsDirExists with
  | false =>
    rw [main_of_dir_missing hd] at he
    simp only [List.mem_cons, List.not_mem_nil, or_false] at he
    rcases he with rfl | rfl
    · exact Or.inl rfl
    · exact Or.inr (Or.inr (Or.inr (Or.inr (Or.inr (Or.inr rfl)))))
  | true =>
    rw [main_of_dir_exists hd] at he
    have hread : ∀ e' ∈ (checkFiles (sortedSqlFiles fs)).1,
        ∃ f, f ∈ sortedSqlFiles fs ∧ isExempt f = false ∧
          e' = Effect.readFile (relPath f) := fun _ h => checkFiles_trace h
    cases hr : (checkFiles (sortedSqlFiles fs)).2 with
    | error e2 =>
      rw [afterScan_error hr] at he
      simp only [List.mem_cons] at he
      rcases he with rfl | rfl | he3
      · exact Or.inl rfl
      · exact Or.inr (Or.inl rfl)
      · exact Or.inr (Or.inr (Or.inl (hread _ he3)))
    | ok fl =>
      cases fl with
      | nil =>
        rw [afterScan_ok_nil hr] at he
        simp only [List.mem_cons] at he
        rcases he with rfl | rfl | he3
        · exact Or.inl rfl
        · exact Or.inr (Or.inl rfl)
        · exact Or.inr (Or.inr (Or.inl (hread _ he3)))
      | cons p fl' =>
        rw [afterScan_ok_cons hr] at he
        rcases List.mem_cons.mp he with rfl | he
        · exact Or.inl rfl
        rcases List.mem_cons.mp he with rfl | he
        · exact Or.inr (Or.inl rfl)
        rcases List.mem_append.mp he with he | he
        · rcases List.mem_append.mp he with he | he
          · exact Or.inr (Or.inr (Or.inl (hread _ he)))
          rcases List.mem_cons.mp he with rfl | he
          · exact Or.inr (Or.inr (Or.inr (Or.inl rfl)))
          obtain ⟨q, -, hq⟩ := List.mem_map.mp he
          exact Or.inr (Or.inr (Or.inr (Or.inr (Or.inl ⟨q, hq.symm⟩))))
        · rcases List.mem_singleton.mp he with rfl
          exact Or.inr (Or.inr (Or.inr (Or.inr (Or.inr (Or.inl rfl)))))

theorem stdoutOf_nil : stdoutOf [] = [] := rfl

theorem stdoutOf_statDir (p : String) (tr : List Effect) :
    stdoutOf (Effect.statDir p :: tr) = stdoutOf tr := rfl

theorem stdoutOf_listDir (p : String) (tr : List Effect) :
    stdoutOf (Effect.listDir p :: tr) = stdoutOf tr := rfl

theorem stdoutOf_writeStdout (s : String) (tr : List Effect) :
    stdoutOf (Effect.writeStdout s :: tr) = s :: stdoutOf tr := rfl

theorem stdoutOf_writeStderr (s : String) (tr : List Effect) :
    stdoutOf (Effect.writeStderr s :: tr) = stdoutOf tr := rfl

theorem stdoutOf_append (l1 l2 : List Effect) :
    stdoutOf (l1 ++ l2) = stdoutOf l1 ++ stdoutOf l2 :=
  List.filterMap_append l1 l2 _

theorem stdoutOf_map_lines (fl : List String) :
    stdoutOf (fl.map fun q => Effect.writeStdout ("  - " ++ q)) =
    fl.map fun q => "  - " ++ q := by
  induction fl with
  | nil => rfl
  | cons a l ih => rw [List.map_cons, stdoutOf_writeStdout, ih, List.map_cons]

/-! ## Claims -/

/-- C4: when the migrations directory does not exist, the run exits with the
failure code immediately: the trace is exactly a stat of the directory and a
single standard-error diagnostic naming the expected absolute path; nothing
is printed to standard output, no file is read, and no per-file failure is
listed. -/
theorem missing_dir_fails_immediately (fs : FileSystem)
    (h : fs.migrationsDirExists = false) :
    main fs = ([Effect.statDir (migrationsDir fs.root),
        Effect.writeStderr (missingDirLine fs.root)], Except.ok 1) ∧
    stdoutOf (main fs).1 = [] ∧
    stderrOf (main fs).1 = [missingDirLine fs.root] ∧
    ∀ p, Effect.readFile p ∉ (main fs).1 := by
  have hm := main_of_dir_missing h
  refine ⟨hm, by rw [hm]; rfl, by rw [hm]; rfl, ?_⟩
  intro p hp
  rw [hm] at hp
  simp at hp

/-- C6: policy violations do not short-circuit.  On a run that raises no
read error, the failure list is exactly the relative paths of all scanned
files that are neither exempt nor marker-bearing (not merely the first one),
and the exit code is the final-decision function of that complete list. -/
theorem scan_is_complete (fs : FileSystem) (fl : List String)
    (hd : fs.migrationsDirExists = true)
    (h : failuresOf fs = Except.ok fl) :
    fl = ((sortedSqlFiles fs).filter fun f => !fileOk f).map relPath ∧
    (main fs).2 = Except.ok (if fl.isEmpty then 0 else 1) := by
  have h' : (checkFiles (sortedSqlFiles fs)).2 = Except.ok fl := h
  exact ⟨checkFiles_ok_failures h',
    by rw [main_of_dir_exists hd, afterScan_ok_exit h']⟩

/-- C7: a non-exempt `.sql` file whose text cannot be read makes the run
abort with an uncaught error: no normal exit code is produced. -/
theorem unreadable_file_aborts (fs : FileSystem) (f : MigrationFile)
    (hd : fs.migrationsDirExists = true) (hf : f ∈ fs.entries)
    (hsql : isSqlName f = true) (he : isExempt f = false)
    (hc : f.content = none) :
    ∃ e, (main fs).2 = Except.error e := by
  obtain ⟨e, herr⟩ := checkFiles_error_of_unreadable
    (mem_sortedSqlFiles.mpr ⟨hf, hsql⟩) he hc
  exact ⟨e, by rw [main_of_dir_exists hd, afterScan_error herr]⟩

/-- C8: every run is read-only with respect to the filesystem: no effect in
the trace of any run creates, modifies, or deletes a file or directory. -/
theorem run_is_read_only (fs : FileSystem) :
    ∀ e ∈ (main fs).1, isFsWrite e = false := by
  intro e he
  rcases main_trace_mem he with rfl | rfl | ⟨f, -, -, rfl⟩ | rfl |
    ⟨p, rfl⟩ | rfl | rfl <;> rfl

/-- C1: on a run that returns normally, the exit code is 0 exactly when the
migrations directory exists and every `.sql` entry directly under it is
exempt or contains the rollback marker, and it is 1 exactly when the
directory is missing or some non-exempt `.sql` entry lacks the marker. -/
theorem exit_code_iff (fs : FileSystem) (c : Nat)
    (h : (main fs).2 = Except.ok c) :
    (c = 0 ↔ fs.migrationsDirExists = true ∧
      ∀ f ∈ fs.entries, isSqlName f = true → fileOk f = true) ∧
    (c = 1 ↔ fs.migrationsDirExists = false ∨
      ∃ f ∈ fs.entries, isSqlName f = true ∧ fileOk f = false) := by
  cases hd : fs.migrationsDirExists with
  | false =>
    rw [main_of_dir_missing hd] at h
    have hc : c = 1 := by simpa [eq_comm] using h
    subst hc
    constructor
    · constructor
      · intro h0; cases h0
      · rintro ⟨hdir, -⟩; cases hdir
    · exact ⟨fun _ => Or.inl rfl, fun _ => rfl⟩
  | true =>
    rw [main_of_dir_exists hd] at h
    cases hr : (checkFiles (sortedSqlFiles fs)).2 with
    | error e =>
      rw [afterScan_error hr] at h
      simp at h
    | ok fl =>
      rw [afterScan_ok_exit hr] at h
      have hc : c = if fl.isEmpty then 0 else 1 := (Except.ok.inj h).symm
      have hfl := checkFiles_ok_failures hr
      have hkey : fl = [] ↔
          ∀ f ∈ fs.entries, isSqlName f = true → fileOk f = true := by
        rw [hfl, List.map_eq_nil_iff, List.filter_eq_nil_iff]
        constructor
        · intro hall f hf hsql
          have := hall f (mem_sortedSqlFiles.mpr ⟨hf, hsql⟩)
          simpa using this
        · intro hall f hf
          obtain ⟨h1, h2⟩ := mem_sortedSqlFiles.mp hf
          simp [hall f h1 h2]
      have hcc : (c = 0 ↔ fl = []) ∧ (c = 1 ↔ fl ≠ []) := by
        by_cases hl : fl = []
        · subst hl
          simp only [List.isEmpty_nil, if_true] at hc
          subst hc
          simp
        · have hl' : fl.isEmpty = false := by
            cases fl with
            | nil => exact absurd rfl hl
            | cons a l => rfl
          rw [hl', if_neg (by simp)] at hc
          subst hc
          simp [hl]
      refine ⟨?_, ?_⟩
      · rw [hcc.1, hkey]
        exact ⟨fun hp => ⟨rfl, hp⟩, fun hp => hp.2⟩
      · rw [hcc.2]
        constructor
        · intro hne
          refine Or.inr ?_
          have hne' : (sortedSqlFiles fs).filter (fun f => !fileOk f) ≠ [] := by
            intro h0
            exact hne (by rw [hfl, h0]; rfl)
          obtain ⟨f, hf⟩ := List.exists_mem_of_ne_nil _ hne'
          have hf' := List.mem_filter.mp hf
          obtain ⟨h1, h2⟩ := mem_sortedSqlFiles.mp hf'.1
          exact ⟨f, h1, h2, by simpa using hf'.2⟩
        · rintro (hmiss | ⟨f, hf, hsql, hok⟩)
          · cases hmiss
          · intro h0
            have := hkey.mp h0 f hf hsql
            rw [hok] at this
            cases this

/-- C2: on a run that returns normally, a non-exempt `.sql` entry with
readable text is reported in the failure list exactly when the exact,
case-sensitive marker string does not occur as a contiguous substring of
that text (no whitespace normalization: occurrence is infix equality of the
code-point sequences). -/
theorem marker_decides_failure (fs : FileSystem) (fl : List String)
    (f : MigrationFile) (t : String)
    (hn : (fs.entries.map MigrationFile.name).Nodup)
    (h : failuresOf fs = Except.ok fl)
    (hf : f ∈ fs.entries) (hsql : isSqlName f = true)
    (he : isExempt f = false) (hc : f.content = some t) :
    relPath f ∈ fl ↔ ¬ (ROLLBACK_MARKER.data <:+: t.data) := by
  have hm : fileHasMarker f = containsMarker t := by
    unfold fileHasMarker
    rw [hc]
  have hfl := checkFiles_ok_failures (h : (checkFiles (sortedSqlFiles fs)).2 = _)
  rw [hfl]
  constructor
  · intro hmem
    obtain ⟨g, hg, hrel⟩ := List.mem_map.mp hmem
    have hg' := List.mem_filter.mp hg
    have hgf : g = f := by
      have hnames : g.name = f.name := relPath_name_inj hrel
      have hgmem : g ∈ fs.entries := (mem_sortedSqlFiles.mp hg'.1).1
      exact List.inj_on_of_nodup_map hn hgmem hf hnames
    subst hgf
    have hok : fileOk g = false := by simpa using hg'.2
    have : containsMarker t = false := by
      have := hok
      unfold fileOk at this
      rw [he, hm] at this
      simpa using this
    simpa [containsMarker] using this
  · intro habs
    have hmk : containsMarker t = false := by
      simpa [containsMarker] using habs
    refine List.mem_map.mpr ⟨f, List.mem_filter.mpr ⟨?_, ?_⟩, rfl⟩
    · exact mem_sortedSqlFiles.mpr ⟨hf, hsql⟩
    · simp [fileOk, he, hm, hmk]

/-- C5: the failure list is sorted by the lexicographic (code-point) order
of the relative paths; on failure, standard output is exactly the header
line followed by one indented line per offending path in that same order;
and the list does not depend on the order in which the filesystem
enumerates the directory. -/
theorem failure_list_sorted_and_printed (fs : FileSystem) (fl : List String)
    (hd : fs.migrationsDirExists = true)
    (h : failuresOf fs = Except.ok fl) :
    fl.Pairwise (fun a b => strLe a b = true) ∧
    (fl ≠ [] → stdoutOf (main fs).1 =
      headerLine :: fl.map (fun p => "  - " ++ p)) ∧
    ∀ l2, fs.entries.Perm l2 → (fs.entries.map MigrationFile.name).Nodup →
      failuresOf ⟨fs.root, fs.migrationsDirExists, l2⟩ = failuresOf fs := by
  have h' : (checkFiles (sortedSqlFiles fs)).2 = Except.ok fl := h
  have hfl := checkFiles_ok_failures h'
  refine ⟨?_, ?_, ?_⟩
  · rw [hfl]
    have h1 : ((sortedSqlFiles fs).filter fun f => !fileOk f).Pairwise
        (fun a b => fileLe a b = true) :=
      List.Pairwise.sublist (List.filter_sublist _) (sortedSqlFiles_sorted fs)
    exact h1.map relPath fun a b hab => relPath_mono hab
  · intro hne
    cases hfl2 : fl with
    | nil => exact absurd hfl2 hne
    | cons p fl' =>
      rw [hfl2] at h'
      rw [main_of_dir_exists hd, afterScan_ok_cons h']
      dsimp only
      simp only [List.cons_append]
      rw [stdoutOf_statDir, stdoutOf_listDir, stdoutOf_append,
        stdoutOf_append, stdoutOf_checkFiles, stdoutOf_writeStdout,
        stdoutOf_map_lines, stdoutOf_writeStderr, stdoutOf_nil]
      simp
  · intro l2 hp hn
    unfold failuresOf
    rw [show sortedSqlFiles ⟨fs.root, fs.migrationsDirExists, l2⟩ =
      sortedSqlFiles fs from (sortedSqlFiles_perm fs.root
        fs.migrationsDirExists hp hn).symm]

/-- C9: the check is deterministic and idempotent: two runs over the same
directory state (same root, same directory existence, same set of entries
with the same contents, in any enumeration order) produce identical traces
and identical results. -/
theorem runs_identical (fs1 fs2 : FileSystem)
    (hroot : fs1.root = fs2.root)
    (hdir : fs1.migrationsDirExists = fs2.migrationsDirExists)
    (hperm : fs1.entries.Perm fs2.entries)
    (hn : (fs1.entries.map MigrationFile.name).Nodup) :
    main fs1 = main fs2 := by
  obtain ⟨r1, d1, l1⟩ := fs1
  obtain ⟨r2, d2, l2⟩ := fs2
  simp only at hroot hdir hperm hn
  subst hroot
  subst hdir
  have hs := sortedSqlFiles_perm r1 d1 hperm hn
  unfold main
  rw [hs]

/-- C3: exempt files pass regardless of content, and their content is never
read: replacing every exempt entry's content (even by unreadable content)
leaves the whole run unchanged, no allowlisted relative path is ever the
subject of a read effect, and no allowlisted relative path appears in the
failure list. -/
theorem exempt_content_never_read (fs : FileSystem)
    (g : String → Option String) :
    main ⟨fs.root, fs.migrationsDirExists,
      fs.entries.map (replaceExempt g)⟩ = main fs ∧
    (∀ p ∈ ALLOWLIST, Effect.readFile p ∉ (main fs).1) ∧
    (∀ fl, failuresOf fs = Except.ok fl → ∀ p ∈ ALLOWLIST, p ∉ fl) := by
  have hname : ∀ f, (replaceExempt g f).name = f.name := by
    intro f
    unfold replaceExempt
    split <;> rfl
  have hsort : sortedSqlFiles ⟨fs.root, fs.migrationsDirExists,
      fs.entries.map (replaceExempt g)⟩ =
      (sortedSqlFiles fs).map (replaceExempt g) := by
    unfold sortedSqlFiles
    show ((fs.entries.map (replaceExempt g)).filter isSqlName).mergeSort
      fileLe = _
    rw [List.filter_map]
    rw [List.filter_congr (fun a _ => by
      show isSqlName (replaceExempt g a) = isSqlName a
      unfold isSqlName
      rw [hname a])]
    exact (List.map_mergeSort fun a _ b _ => by
      show fileLe a b = fileLe (replaceExempt g a) (replaceExempt g b)
      unfold fileLe strLe
      rw [hname a, hname b]).symm
  refine ⟨?_, ?_, ?_⟩
  · cases hd : fs.migrationsDirExists with
    | false =>
      rw [main_of_dir_missing hd,
        @main_of_dir_missing ⟨fs.root, false,
          fs.entries.map (replaceExempt g)⟩ rfl]
    | true =>
      rw [hd] at hsort
      rw [main_of_dir_exists hd,
        @main_of_dir_exists ⟨fs.root, true,
          fs.entries.map (replaceExempt g)⟩ rfl, hsort,
        checkFiles_replaceExempt]
  · intro p hmem hin
    rcases main_trace_mem hin with h1 | h1 | ⟨f, -, hex, h1⟩ | h1 |
      ⟨q, h1⟩ | h1 | h1
    · simp at h1
    · simp at h1
    · have h2 : p = relPath f := by
        injection h1
      simp only [isExempt, decide_eq_false_iff_not] at hex
      exact hex (h2 ▸ hmem)
    · simp at h1
    · simp at h1
    · simp at h1
    · simp at h1
  · intro fl h p hmem hin
    have h' : (checkFiles (sortedSqlFiles fs)).2 = Except.ok fl := h
    rw [checkFiles_ok_failures h'] at hin
    obtain ⟨f, hf, hrel⟩ := List.mem_map.mp hin
    have hok : fileOk f = false := by
      simpa using (List.mem_filter.mp hf).2
    have hex : isExempt f = false := by
      unfold fileOk at hok
      exact (Bool.or_eq_false_iff.mp hok).1
    simp only [isExempt, decide_eq_false_iff_not] at hex
    exact hex (hrel ▸ hmem)

/-- C10: a successful run (exit code 0) prints nothing at all to standard
output or standard error. -/
theorem success_is_silent (fs : FileSystem)
    (h : (main fs).2 = Except.ok 0) :
    stdoutOf (main fs).1 = [] ∧ stderrOf (main fs).1 = [] := by
  cases hd : fs.migrationsDirExists with
  | false =>
    rw [main_of_dir_missing hd] at h
    simp at h
  | true =>
    cases hr : (checkFiles (sortedSqlFiles fs)).2 with
    | error e =>
      rw [main_of_dir_exists hd, afterScan_error hr] at h
      simp at h
    | ok fl =>
      cases fl with
      | cons p fl' =>
        rw [main_of_dir_exists hd, afterScan_ok_cons hr] at h
        simp at h
      | nil =>
        rw [main_of_dir_exists hd, afterScan_ok_nil hr]
        have h1 := stdoutOf_checkFiles (sortedSqlFiles fs)
        have h2 := stderrOf_checkFiles (sortedSqlFiles fs)
        constructor
        · simpa [stdoutOf, List.filterMap_cons] using h1
        · simpa [stderrOf, List.filterMap_cons] using h2

/-! ## Concrete evaluations and witnesses -/

theorem demoFS_sorted : sortedSqlFiles demoFS = demoEntries :=
  (sortedSqlFiles_eq_filter (by decide)).trans rfl

theorem demoFS_failures : failuresOf demoFS =
    Except.ok ["backend/migrations/bad_one.sql"] := by
  unfold failuresOf
  rw [demoFS_sorted]
  rfl

theorem demoTwoBad_sorted : sortedSqlFiles demoTwoBadFS =
    [⟨"a_first.sql", some "ALTER TABLE a;"⟩,
     ⟨"b_second.sql", some "ALTER TABLE b;"⟩] := by
  rw [show sortedSqlFiles demoTwoBadFS =
      sortedSqlFiles ⟨"/repo", true,
        [⟨"a_first.sql", some "ALTER TABLE a;"⟩,
         ⟨"b_second.sql", some "ALTER TABLE b;"⟩]⟩ from
    sortedSqlFiles_perm "/repo" true (List.Perm.swap _ _ _) (by decide)]
  exact (sortedSqlFiles_eq_filter (by decide)).trans rfl

theorem demoTwoBad_failures : failuresOf demoTwoBadFS =
    Except.ok ["backend/migrations/a_first.sql",
               "backend/migrations/b_second.sql"] := by
  unfold failuresOf
  rw [demoTwoBad_sorted]
  rfl

/-- Witness for C1 at a concrete directory with one undocumented file. -/
theorem exit_code_iff_witness :
    ((1 : Nat) = 0 ↔ demoFS.migrationsDirExists = true ∧
      ∀ f ∈ demoFS.entries, isSqlName f = true → fileOk f = true) ∧
    ((1 : Nat) = 1 ↔ demoFS.migrationsDirExists = false ∨
      ∃ f ∈ demoFS.entries, isSqlName f = true ∧ fileOk f = false) :=
  exit_code_iff demoFS 1
    (by rw [@main_of_dir_exists demoFS rfl, demoFS_sorted]; rfl)

/-- Witness for C2 at the undocumented file of `demoFS`. -/
theorem marker_decides_failure_witness :
    (relPath ⟨"bad_one.sql", some "CREATE TABLE b (id int);"⟩ ∈
        ["backend/migrations/bad_one.sql"]) ↔
      ¬ (ROLLBACK_MARKER.data <:+: "CREATE TABLE b (id int);".data) :=
  marker_decides_failure demoFS ["backend/migrations/bad_one.sql"]
    ⟨"bad_one.sql", some "CREATE TABLE b (id int);"⟩
    "CREATE TABLE b (id int);" (by decide) demoFS_failures
    (by decide) (by decide) (by decide) rfl

/-- Witness for C3: blanking every exempt file of `demoFS` changes nothing,
and the exempt legacy file is never read. -/
theorem exempt_content_never_read_witness :
    main ⟨demoFS.root, demoFS.migrationsDirExists,
      demoFS.entries.map (replaceExempt fun _ => none)⟩ = main demoFS ∧
    Effect.readFile "backend/migrations/1 - init.sql" ∉ (main demoFS).1 := by
  have h := exempt_content_never_read demoFS (fun _ => none)
  exact ⟨h.1, h.2.1 _ (by decide)⟩

/-- Witness for C4 at a repository without a migrations directory. -/
theorem missing_dir_fails_immediately_witness :
    main demoMissingFS = ([Effect.statDir (migrationsDir "/repo"),
      Effect.writeStderr (missingDirLine "/repo")], Except.ok 1) :=
  (missing_dir_fails_immediately demoMissingFS rfl).1

/-- Witness for C5 at a directory enumerated out of sorted order. -/
theorem failure_list_sorted_and_printed_witness :
    (["backend/migrations/a_first.sql",
      "backend/migrations/b_second.sql"].Pairwise
        fun a b => strLe a b = true) ∧
    stdoutOf (main demoTwoBadFS).1 =
      headerLine :: ["backend/migrations/a_first.sql",
        "backend/migrations/b_second.sql"].map (fun p => "  - " ++ p) := by
  have h := failure_list_sorted_and_printed demoTwoBadFS
    ["backend/migrations/a_first.sql", "backend/migrations/b_second.sql"]
    rfl demoTwoBad_failures
  exact ⟨h.1, h.2.1 (by simp)⟩

/-- Witness for C6: both undocumented files are reported in one run. -/
theorem scan_is_complete_witness :
    ["backend/migrations/a_first.sql", "backend/migrations/b_second.sql"] =
      ((sortedSqlFiles demoTwoBadFS).filter fun f => !fileOk f).map relPath ∧
    (main demoTwoBadFS).2 = Except.ok 1 :=
  scan_is_complete demoTwoBadFS
    ["backend/migrations/a_first.sql", "backend/migrations/b_second.sql"]
    rfl demoTwoBad_failures

/-- Witness for C7 at a directory with an unreadable migration. -/
theorem unreadable_file_aborts_witness :
    ∃ e, (main demoUnreadableFS).2 = Except.error e :=
  unreadable_file_aborts demoUnreadableFS ⟨"broken.sql", none⟩ rfl
    (by decide) (by decide) (by decide) rfl

/-- Witness for C8 at a concrete effect of a concrete run. -/
theorem run_is_read_only_witness :
    isFsWrite (Effect.statDir (migrationsDir "/repo")) = false :=
  run_is_read_only demoMissingFS (Effect.statDir (migrationsDir "/repo"))
    (by rw [@main_of_dir_missing demoMissingFS rfl]
        exact List.mem_cons_self _ _)

/-- Witness for C9: two enumeration orders of the same directory. -/
theorem runs_identical_witness :
    main demoTwoBadFS = main ⟨"/repo", true,
      [⟨"a_first.sql", some "ALTER TABLE a;"⟩,
       ⟨"b_second.sql", some "ALTER TABLE b;"⟩]⟩ :=
  runs_identical demoTwoBadFS
    ⟨"/repo", true, [⟨"a_first.sql", some "ALTER TABLE a;"⟩,
      ⟨"b_second.sql", some "ALTER TABLE b;"⟩]⟩
    rfl rfl (List.Perm.swap _ _ _) (by decide)

/-- Witness for C10 at a fully documented directory. -/
theorem success_is_silent_witness :
    stdoutOf (main demoOkFS).1 = [] ∧ stderrOf (main demoOkFS).1 = [] :=
  success_is_silent demoOkFS
    (by rw [@main_of_dir_exists demoOkFS rfl,
          show sortedSqlFiles demoOkFS = demoOkFS.entries.filter isSqlName
            from sortedSqlFiles_eq_filter (by decide)]
        rfl)

end MigrationCheck
